import Mathlib

/-!
# Shallow embedding of the codex-mgr gateway request plane

This file embeds, in Lean 4, the parts of the `codex-rs/mgr` crate that the
verified properties concern: the router (`routing.rs`), the account token
provider (`account_token_provider.rs`), the upstream forwarder response
decoration (`proxy.rs` / `header_policy.rs`), bearer-token parsing and the
conversation-id extraction (`serve.rs`, `routing.rs`).

Machine integers are modelled as `Int`/`Nat` with explicit two's-complement
and saturation arithmetic where the Rust code uses `i64` operations.  The
`f64` usage scores are modelled as `ℚ`; every comparison the comparator
performs (ordering, subtraction, absolute value, comparison against
`f64::EPSILON = 2⁻⁵²`) is exact on the dyadic values exercised here, so the
rational model agrees with IEEE double arithmetic on them.

Asynchronous kv (Redis) interactions are embedded by explicit oracles: each
kv response the code consumes is a field of an oracle structure, and each kv
command the code issues is recorded in an output effect list.
-/

namespace Gateway

/-! ## 64-bit integer model -/

/-- `i64::MAX`. -/
def i64Max : Int := 9223372036854775807

/-- `i64::MIN`. -/
def i64Min : Int := -9223372036854775808

/-- Saturating `i64` subtraction (`i64::saturating_sub`). -/
def satSub (a b : Int) : Int :=
  max i64Min (min i64Max (a - b))

/-- Saturating `i64` multiplication (`i64::saturating_mul`). -/
def satMul (a b : Int) : Int :=
  max i64Min (min i64Max (a * b))

/-- Saturating `i64` addition (`i64::saturating_add`). -/
def satAdd (a b : Int) : Int :=
  max i64Min (min i64Max (a + b))

/-! ## SHA-256 (the `sha2` crate), over byte lists

Bytes are natural numbers `< 256`; 32-bit words are naturals reduced by
`w32`. -/

/-- Truncate to a 32-bit word. -/
def w32 (n : Nat) : Nat := n % 4294967296

/-- Rotate a 32-bit word right by `n` bits. -/
def rotr32 (x n : Nat) : Nat := w32 ((x >>> n) ||| (x <<< (32 - n)))

/-- The 64 SHA-256 round constants. -/
def shaK : List Nat :=
  [1116352408, 1899447441, 3049323471, 3921009573, 961987163, 1508970993,
   2453635748, 2870763221, 3624381080, 310598401, 607225278, 1426881987,
   1925078388, 2162078206, 2614888103, 3248222580, 3835390401, 4022224774,
   264347078, 604807628, 770255983, 1249150122, 1555081692, 1996064986,
   2554220882, 2821834349, 2952996808, 3210313671, 3336571891, 3584528711,
   113926993, 338241895, 666307205, 773529912, 1294757372, 1396182291,
   1695183700, 1986661051, 2177026350, 2456956037, 2730485921, 2820302411,
   3259730800, 3345764771, 3516065817, 3600352804, 4094571909, 275423344,
   430227734, 506948616, 659060556, 883997877, 958139571, 1322822218,
   1537002063, 1747873779, 1955562222, 2024104815, 2227730452, 2361852424,
   2428436474, 2756734187, 3204031479, 3329325298]

/-- The SHA-256 initial hash value. -/
def shaInitH : List Nat :=
  [1779033703, 3144134277, 1013904242, 2773480762, 1359893119, 2600822924,
   528734635, 1541459225]

/-- Big-endian byte decomposition: `beBytes n v` is the `n` low-order bytes
of `v`, most significant first. -/
def beBytes : Nat → Nat → List Nat
  | 0, _ => []
  | n + 1, v => beBytes n (v / 256) ++ [v % 256]

/-- Group bytes into big-endian 32-bit words (dropping a ragged tail;
SHA-256 blocks are always a multiple of 4 bytes). -/
def wordsFromBytes : List Nat → List Nat
  | b0 :: b1 :: b2 :: b3 :: rest =>
      (((b0 * 256 + b1) * 256 + b2) * 256 + b3) :: wordsFromBytes rest
  | _ => []

/-- One step of the SHA-256 message-schedule extension: appends word
`W[n]` from `W[n-16]`, `W[n-15]`, `W[n-7]`, `W[n-2]`. -/
def shaExtendStep (w : List Nat) : List Nat :=
  let n := w.length
  let x15 := w.getD (n - 15) 0
  let x2 := w.getD (n - 2) 0
  let s0 := rotr32 x15 7 ^^^ rotr32 x15 18 ^^^ (x15 >>> 3)
  let s1 := rotr32 x2 17 ^^^ rotr32 x2 19 ^^^ (x2 >>> 10)
  w ++ [w32 (w.getD (n - 16) 0 + s0 + w.getD (n - 7) 0 + s1)]

/-- The eight SHA-256 working variables. -/
structure Sha8 where
  a : Nat
  b : Nat
  c : Nat
  d : Nat
  e : Nat
  f : Nat
  g : Nat
  h : Nat

/-- One SHA-256 compression round; `kw` is `K[t] + W[t]` (mod 2³²). -/
def shaRound (s : Sha8) (kw : Nat) : Sha8 :=
  let S1 := rotr32 s.e 6 ^^^ rotr32 s.e 11 ^^^ rotr32 s.e 25
  let ch := (s.e &&& s.f) ^^^ ((4294967295 ^^^ s.e) &&& s.g)
  let temp1 := w32 (s.h + S1 + ch + kw)
  let S0 := rotr32 s.a 2 ^^^ rotr32 s.a 13 ^^^ rotr32 s.a 22
  let maj := (s.a &&& s.b) ^^^ (s.a &&& s.c) ^^^ (s.b &&& s.c)
  let temp2 := w32 (S0 + maj)
  ⟨w32 (temp1 + temp2), s.a, s.b, s.c, w32 (s.d + temp1), s.e, s.f, s.g⟩

/-- Compress one 64-byte block into the running hash (eight words). -/
def shaCompress (hs : List Nat) (block : List Nat) : List Nat :=
  let w := Nat.repeat shaExtendStep 48 (wordsFromBytes block)
  let s0 : Sha8 :=
    ⟨hs.getD 0 0, hs.getD 1 0, hs.getD 2 0, hs.getD 3 0,
     hs.getD 4 0, hs.getD 5 0, hs.getD 6 0, hs.getD 7 0⟩
  let sf := (shaK.zip w).foldl (fun s kw => shaRound s (w32 (kw.1 + kw.2))) s0
  [w32 (hs.getD 0 0 + sf.a), w32 (hs.getD 1 0 + sf.b),
   w32 (hs.getD 2 0 + sf.c), w32 (hs.getD 3 0 + sf.d),
   w32 (hs.getD 4 0 + sf.e), w32 (hs.getD 5 0 + sf.f),
   w32 (hs.getD 6 0 + sf.g), w32 (hs.getD 7 0 + sf.h)]

/-- SHA-256 padding: `0x80`, zeros to 56 mod 64, then the 64-bit big-endian
bit length. -/
def shaPad (msg : List Nat) : List Nat :=
  let L := msg.length
  msg ++ [128] ++ List.replicate ((119 - L % 64) % 64) 0 ++ beBytes 8 (L * 8)

/-- Split into 64-byte blocks (fuelled so the recursion is structural and
kernel-reducible; `fuel = l.length` always suffices since every step drops
at least one byte). -/
def chunks64Fuel : Nat → List Nat → List (List Nat)
  | 0, _ => []
  | _ + 1, [] => []
  | fuel + 1, l => l.take 64 :: chunks64Fuel fuel (l.drop 64)

/-- Split into 64-byte blocks. -/
def chunks64 (l : List Nat) : List (List Nat) := chunks64Fuel l.length l

/-- SHA-256 of a byte list, as its 32 digest bytes. -/
def sha256 (msg : List Nat) : List Nat :=
  ((chunks64 (shaPad msg)).foldl shaCompress shaInitH).foldr
    (fun h acc => beBytes 4 h ++ acc) []

/-! ## UTF-8 encoding (Rust `str::as_bytes`) -/

/-- UTF-8 encoding of one scalar value. -/
def utf8Char (c : Char) : List Nat :=
  let n := c.toNat
  if n < 128 then [n]
  else if n < 2048 then [192 ||| (n >>> 6), 128 ||| (n &&& 63)]
  else if n < 65536 then
    [224 ||| (n >>> 12), 128 ||| ((n >>> 6) &&& 63), 128 ||| (n &&& 63)]
  else
    [240 ||| (n >>> 18), 128 ||| ((n >>> 12) &&& 63),
     128 ||| ((n >>> 6) &&& 63), 128 ||| (n &&& 63)]

/-- UTF-8 bytes of a string. -/
def utf8 (s : String) : List Nat := (s.toList.map utf8Char).flatten

/-! ## base64url without padding
(`base64::engine::general_purpose::URL_SAFE_NO_PAD`) -/

/-- The base64url alphabet. -/
def b64Char (n : Nat) : Char :=
  "ABCDEFGHIJKLMNOPQRSTUVWXYZabcdefghijklmnopqrstuvwxyz0123456789-_".toList.getD n 'A'

/-- base64url-no-pad encoding of a byte list. -/
def b64url : List Nat → List Char
  | b0 :: b1 :: b2 :: rest =>
      let n := (b0 * 256 + b1) * 256 + b2
      b64Char (n >>> 18) :: b64Char ((n >>> 12) &&& 63) ::
        b64Char ((n >>> 6) &&& 63) :: b64Char (n &&& 63) :: b64url rest
  | [b0, b1] =>
      let n := b0 * 1024 + b1 * 4
      [b64Char (n >>> 12), b64Char ((n >>> 6) &&& 63), b64Char (n &&& 63)]
  | [b0] =>
      let n := b0 * 16
      [b64Char (n >>> 6), b64Char (n &&& 63)]
  | [] => []

/-! ## Usage scores (`usage.rs::Score`)

The two `f64` remaining-percent fields are modelled as `ℚ`; the comparator in
`routing.rs::select_candidates` only subtracts, takes absolute values, and
compares them (against `f64::EPSILON = 2⁻⁵²`), all of which are exact for the
dyadic values arising here. -/

/-- `usage::Score` (`usage.rs`). -/
structure Score where
  weekly_present : Bool
  weekly_remaining : ℚ
  five_present : Bool
  five_remaining : ℚ
deriving DecidableEq

/-- `f64::EPSILON` = 2⁻⁵². -/
def f64Epsilon : ℚ := 1 / 4503599627370496

/-- `f64::abs` on the rational model (spelled out so it reduces in the
kernel). -/
def ratAbs (q : ℚ) : ℚ := if q < 0 then -q else q

/-- Lookup in the usage-score map (`HashMap::get`; the map is modelled as an
association list, sufficient because the code only calls `get` and
`is_empty`). -/
def scoresGet (scores : List (String × Score)) (label : String) : Option Score :=
  (scores.find? (fun p => p.1 == label)).map (fun p => p.2)

/-- The comparator's sort-key helper (`keys` inside `select_candidates`):
`(is_available, weekly_remaining, five_remaining)`, with an unknown label
treated as `(true, 100.0, 100.0)`. -/
def scoreKeys (score : Option Score) : Bool × ℚ × ℚ :=
  match score with
  | some s =>
      (decide (0 < s.weekly_remaining) && decide (0 < s.five_remaining),
       s.weekly_remaining, s.five_remaining)
  | none => (true, 100, 100)

/-- `bool::cmp` (false < true). -/
def cmpBool : Bool → Bool → Ordering
  | false, true => Ordering.lt
  | true, false => Ordering.gt
  | _, _ => Ordering.eq

/-- Total comparison on ℚ (mirrors `f64::partial_cmp` on the exact values
involved, where it is always `Some`). -/
def cmpQ (a b : ℚ) : Ordering :=
  if a < b then Ordering.lt else if b < a then Ordering.gt else Ordering.eq

/-- Lexicographic comparison of strings by scalar value; this agrees with
Rust `str::cmp` (byte-lexicographic on UTF-8, which preserves scalar-value
order). -/
def cmpCharList : List Char → List Char → Ordering
  | [], [] => Ordering.eq
  | [], _ :: _ => Ordering.lt
  | _ :: _, [] => Ordering.gt
  | a :: as, b :: bs =>
      if a.toNat < b.toNat then Ordering.lt
      else if b.toNat < a.toNat then Ordering.gt
      else cmpCharList as bs

/-- Rust `String::cmp`. -/
def cmpString (a b : String) : Ordering := cmpCharList a.toList b.toList

/-- The sort comparator of `select_candidates` (`routing.rs` lines 184-235):
availability first (descending), then weekly remaining descending, then
five-hour remaining descending (each guarded by an `f64::EPSILON`
difference), then the label ascending. -/
def routeCmp (scores : List (String × Score)) (a b : String) : Ordering :=
  let kA := scoreKeys (scoresGet scores a)
  let kB := scoreKeys (scoresGet scores b)
  if kA.1 ≠ kB.1 then (cmpBool kA.1 kB.1).swap
  else if f64Epsilon < ratAbs (kA.2.1 - kB.2.1) then cmpQ kB.2.1 kA.2.1
  else if f64Epsilon < ratAbs (kA.2.2 - kB.2.2) then cmpQ kB.2.2 kA.2.2
  else cmpString a b

/-! ## Router (`routing.rs`) -/

/-- First 8 digest bytes as a big-endian two's-complement `i64`
(`i64::from_be_bytes`). -/
def i64FromBeBytes (bs : List Nat) : Int :=
  let n : Nat := bs.foldl (fun acc b => acc * 256 + b) 0
  if n < 9223372036854775808 then (n : Int) else (n : Int) - 18446744073709551616

/-- The index computation of `routing.rs::select_candidates_ring` (lines
246-266), factored out: SHA-256 over `pool ‖ 0x00 ‖ policy_key-or-nothing ‖
0x00 ‖ key`, first 8 bytes as a big-endian `i64`, `checked_abs` saturating
`i64::MIN` to `i64::MAX` (`checked_abs().unwrap_or(i64::MAX)`), then
`rem_euclid` by the label count (itself saturated into `i64` by
`i64::try_from(len).unwrap_or(i64::MAX)`). -/
def ringIdx (account_pool_id : String) (policy_key : Option String)
    (key : String) (len : Nat) : Nat :=
  let digest := sha256 (utf8 account_pool_id ++ [0] ++
    (match policy_key with
     | some pk => utf8 pk
     | none => []) ++ [0] ++ utf8 key)
  let value := i64FromBeBytes (digest.take 8)
  let value2 := if value = i64Min then i64Max else (value.natAbs : Int)
  (value2.emod (min (len : Int) i64Max)).toNat

/-- `routing.rs::select_candidates_ring`: consistent-hash ring selection.
The ring is `labels` read cyclically starting at `ringIdx`. -/
def select_candidates_ring (account_pool_id : String) (policy_key : Option String)
    (key : String) (labels : List String) : Except String (List String) :=
  let len := labels.length
  let lenI64 : Int := min (len : Int) i64Max
  if lenI64 ≤ 0 then Except.error "labels must not be empty"
  else
    let idx := ringIdx account_pool_id policy_key key len
    Except.ok ((List.range len).map (fun i => labels.getD ((idx + i) % len) ""))

/-- `routing.rs::select_candidates`: with an empty usage-score map, fall back
to the hash ring; otherwise stable-sort a copy of `labels` by `routeCmp`.
(The comparator orders distinct labels strictly, so the stable sort's result
is the unique sorted permutation, as produced by Rust's `sort_by`.) -/
def select_candidates (account_pool_id : String) (policy_key : Option String)
    (key : String) (labels : List String) (usage_scores : List (String × Score)) :
    Except String (List String) :=
  if usage_scores.isEmpty then
    select_candidates_ring account_pool_id policy_key key labels
  else
    Except.ok (List.insertionSort
      (fun a b => routeCmp usage_scores a b ≠ Ordering.gt) labels)

/-- `routing.rs::sticky_key`; the leading literal is the crate's sticky-key
constant. -/
def sticky_key (account_pool_id conversation_id : String) : String :=
  "gw:sticky:" ++ account_pool_id ++ ":" ++
    String.mk (b64url (sha256 (utf8 conversation_id)))

deriving instance DecidableEq for Except

/-- `routing.rs::RouteInfo`. -/
structure RouteInfo where
  account_pool_id : String
  candidates : List String
  conversation_id : Option String
deriving DecidableEq

/-- A kv `SET` command issued by the router: unconditional `SET key value EX
ttl`, or `SET key value NX EX ttl`. -/
inductive KvWrite
  | setEx (key value : String) (ttl : Int)
  | setNxEx (key value : String) (ttl : Int)
deriving DecidableEq

/-- The kv responses `route_account` consumes, in order: the first `GET` of
the sticky key, whether the `SET NX` succeeded, and the re-read `GET` after a
lost race.  Fields that a given control path does not reach are simply
unused. -/
structure KvOracle where
  get1 : Option String
  nxOk : Bool
  get2 : Option String

/-- `routing.rs::RouteAccountArgs`. -/
structure RouteAccountArgs where
  account_pool_id : String
  labels : List String
  policy_key : Option String
  sticky_ttl_seconds : Int
  conversation_id : Option String
  non_sticky_key : String
  usage_scores : List (String × Score)

/-- `routing.rs::route_account`, with kv interactions driven by the oracle
and every issued `SET` recorded in the returned write list.  (`list[0]` on an
empty selection, which would panic in Rust, is represented as an error; it is
unreachable for non-empty `labels`.) -/
def route_account (kv : KvOracle) (args : RouteAccountArgs) :
    Except String (RouteInfo × List KvWrite) :=
  if args.labels = [] then Except.error "pool has no labels configured"
  else if args.sticky_ttl_seconds ≤ 0 then Except.error "sticky_ttl_seconds must be > 0"
  else
    match args.conversation_id with
    | some cid =>
      let skey := sticky_key args.account_pool_id cid
      match kv.get1 with
      | some existing =>
        if args.labels.any (fun l => l == existing) then
          Except.ok (⟨args.account_pool_id,
            existing :: args.labels.filter (fun l => l != existing),
            args.conversation_id⟩, [])
        else
          match select_candidates args.account_pool_id args.policy_key cid
              args.labels args.usage_scores with
          | Except.error e => Except.error e
          | Except.ok [] => Except.error "index out of bounds"
          | Except.ok (selected :: rest) =>
            Except.ok (⟨args.account_pool_id, selected :: rest, args.conversation_id⟩,
              [KvWrite.setEx skey selected args.sticky_ttl_seconds])
      | none =>
        match select_candidates args.account_pool_id args.policy_key cid
            args.labels args.usage_scores with
        | Except.error e => Except.error e
        | Except.ok [] => Except.error "index out of bounds"
        | Except.ok (selected :: rest) =>
          let writes := [KvWrite.setNxEx skey selected args.sticky_ttl_seconds]
          if kv.nxOk then
            Except.ok (⟨args.account_pool_id, selected :: rest, args.conversation_id⟩, writes)
          else
            match kv.get2 with
            | some c =>
              if args.labels.contains c then
                Except.ok (⟨args.account_pool_id,
                  c :: args.labels.filter (fun l => l != c),
                  args.conversation_id⟩, writes)
              else
                Except.ok (⟨args.account_pool_id, selected :: rest,
                  args.conversation_id⟩, writes)
            | none =>
              Except.ok (⟨args.account_pool_id, selected :: rest,
                args.conversation_id⟩, writes)
    | none =>
      match select_candidates args.account_pool_id args.policy_key
          args.non_sticky_key args.labels args.usage_scores with
      | Except.error e => Except.error e
      | Except.ok list =>
        Except.ok (⟨args.account_pool_id, list, args.conversation_id⟩, [])

/-! ## Token provider (`account_token_provider.rs`) -/

/-- `account_token_provider.rs::AuthMaterial`. -/
structure AuthMaterial where
  authorization : String
  chatgpt_account_id : Option String
  expires_at_ms : Int
deriving DecidableEq

/-- `REFRESH_LOCK_TTL_MS`. -/
def REFRESH_LOCK_TTL_MS : Int := 15000

/-- `LOCK_WAIT_POLL_MS`. -/
def LOCK_WAIT_POLL_MS : Int := 200

/-- Side effects of the token provider observable in kv / on disk: the
`SET NX PX` attempt on the refresh lock, a `load_from_auth` call (which reads
the on-disk credential store), and the cache `SET ... EX ttl`. -/
inductive TokenEvent
  | lockAttempt (key : String)
  | load
  | cacheSet (key : String) (ttl : Int)
deriving DecidableEq

/-- `account_token_provider.rs::put_cached`: computes the cache TTL as
`(expires_at_ms.saturating_sub(now) / 1000) - token_safety_window_seconds`
(Rust `/` on `i64` truncates toward zero, hence `Int.div`), refuses to cache
when it is ≤ 0, and otherwise issues `SET key value EX ttl`.  The returned
pair is the key and TTL of that `SET` (the JSON serialisation of the value is
not modelled). -/
def put_cached (account_id : String) (material : AuthMaterial)
    (token_safety_window_seconds : Int) (nowMs : Int) :
    Except String (String × Int) :=
  let key := "gw:acct_token:" ++ account_id
  let ttl_seconds :=
    Int.tdiv (satSub material.expires_at_ms nowMs) 1000 - token_safety_window_seconds
  if ttl_seconds ≤ 0 then
    Except.error "refusing to cache expired/near-expiry access token"
  else Except.ok (key, ttl_seconds)

/-- One iteration of the lock-wait poll loop: the clock value at the cache
freshness test, the `get_cached` result, and the clock value at the deadline
test. -/
structure PollStep where
  nowAtCheck : Int
  cached : Option AuthMaterial
  nowAtDeadline : Int

/-- The clock and kv/filesystem responses `get` consumes, in order.  Fields a
control path does not reach are unused. -/
structure TokenOracle where
  startMs : Int
  cached0 : Option AuthMaterial
  lockAcquired : Bool
  loadResult : Except String AuthMaterial
  putNow : Int
  polls : List PollStep
  loadResult2 : Except String AuthMaterial
  putNow2 : Int

/-- The lock-wait poll loop of `get` (lines 63-78): each iteration sleeps,
re-reads the cache, returns a hit that satisfies the safety window, and
otherwise breaks once the deadline has passed.  The real loop can only exit
through one of those two tests; an exhausted oracle is modelled as the
deadline having been reached. -/
def tpWaitLoop (safety_ms deadline_ms : Int) : List PollStep → Option AuthMaterial
  | [] => none
  | step :: rest =>
    match step.cached with
    | some material =>
      if safety_ms < satSub material.expires_at_ms step.nowAtCheck then some material
      else if deadline_ms ≤ step.nowAtDeadline then none
      else tpWaitLoop safety_ms deadline_ms rest
    | none =>
      if deadline_ms ≤ step.nowAtDeadline then none
      else tpWaitLoop safety_ms deadline_ms rest

/-- `account_token_provider.rs::get`, with clock and kv interactions driven
by the oracle and effects recorded in the returned event list. -/
def tp_get (kv : TokenOracle) (account_id : String)
    (token_safety_window_seconds : Int) :
    Except String (AuthMaterial × List TokenEvent) :=
  if token_safety_window_seconds < 0 then
    Except.error "token_safety_window_seconds must be >= 0"
  else
    let safety_ms := satMul token_safety_window_seconds 1000
    let freshHit :=
      match kv.cached0 with
      | some material =>
        if safety_ms < satSub material.expires_at_ms kv.startMs then some material
        else none
      | none => none
    match freshHit with
    | some material => Except.ok (material, [])
    | none =>
      let lock_key := "gw:lock:acct_token_refresh:" ++ account_id
      if kv.lockAcquired then
        match kv.loadResult with
        | Except.error e => Except.error e
        | Except.ok material =>
          match put_cached account_id material token_safety_window_seconds kv.putNow with
          | Except.error e => Except.error e
          | Except.ok (key, ttl) =>
            Except.ok (material,
              [TokenEvent.lockAttempt lock_key, TokenEvent.load,
               TokenEvent.cacheSet key ttl])
      else
        let deadline_ms := satAdd kv.startMs REFRESH_LOCK_TTL_MS
        match tpWaitLoop safety_ms deadline_ms kv.polls with
        | some material => Except.ok (material, [TokenEvent.lockAttempt lock_key])
        | none =>
          match kv.loadResult2 with
          | Except.error e => Except.error e
          | Except.ok material =>
            match put_cached account_id material token_safety_window_seconds kv.putNow2 with
            | Except.error e => Except.error e
            | Except.ok (key, ttl) =>
              Except.ok (material,
                [TokenEvent.lockAttempt lock_key, TokenEvent.load,
                 TokenEvent.cacheSet key ttl])

/-! ## Strings: Rust `trim`, `split_whitespace`, `contains`,
`eq_ignore_ascii_case` -/

/-- Rust `char::is_whitespace` (the Unicode White_Space set). -/
def isRustWhitespace (c : Char) : Bool :=
  let n := c.toNat
  (9 ≤ n && n ≤ 13) || n == 32 || n == 133 || n == 160 || n == 5760 ||
  (8192 ≤ n && n ≤ 8202) || n == 8232 || n == 8233 || n == 8239 ||
  n == 8287 || n == 12288

/-- Rust `str::trim` on a character list. -/
def trimChars (cs : List Char) : List Char :=
  ((cs.dropWhile isRustWhitespace).reverse.dropWhile isRustWhitespace).reverse

/-- Rust `str::trim`. -/
def trimStr (s : String) : String := String.mk (trimChars s.toList)

/-- Whether `pat` occurs at the head of `l`. -/
def leadsList : List Char → List Char → Bool
  | [], _ => true
  | _ :: _, [] => false
  | a :: as, b :: bs => a == b && leadsList as bs

/-- Substring occurrence over character lists. -/
def containsSubList (pat : List Char) : List Char → Bool
  | [] => leadsList pat []
  | c :: rest => leadsList pat (c :: rest) || containsSubList pat rest

/-- Rust `str::contains` with a string pattern. -/
def strContains (haystack pat : String) : Bool :=
  containsSubList pat.toList haystack.toList

/-- Lowercase an ASCII letter (Rust `char::to_ascii_lowercase`). -/
def toLowerAscii (c : Char) : Char :=
  if 65 ≤ c.toNat && c.toNat ≤ 90 then Char.ofNat (c.toNat + 32) else c

/-- Rust `str::eq_ignore_ascii_case` (byte-wise, with only ASCII letters
folded; UTF-8 decoding is injective so the character-wise model agrees). -/
def eqIgnoreAsciiCase (a b : String) : Bool :=
  a.toList.map toLowerAscii == b.toList.map toLowerAscii

/-- `split_whitespace` accumulator: splits into maximal runs of
non-whitespace characters. -/
def splitWsAux : List Char → List Char → List (List Char)
  | [], acc => if acc.isEmpty then [] else [acc.reverse]
  | c :: cs, acc =>
    if isRustWhitespace c then
      if acc.isEmpty then splitWsAux cs [] else acc.reverse :: splitWsAux cs []
    else splitWsAux cs (c :: acc)

/-- Rust `str::split_whitespace`, as the list of all its items. -/
def splitWhitespace (s : String) : List String :=
  (splitWsAux s.toList []).map String.mk

/-- `serve.rs::parse_bearer_token`: first whitespace-separated token must be
`bearer` (ASCII case-insensitive); the result is the second token, if any. -/
def parse_bearer_token (value : String) : Option String :=
  match splitWhitespace value with
  | [] => none
  | scheme :: rest =>
    if eqIgnoreAsciiCase scheme "bearer" then rest.head? else none

/-! ## Conversation-id extraction (`routing.rs` lines 146-157)

A raw header value is modelled by the result of `HeaderValue::to_str().ok()`:
`some s` when the bytes are valid visible ASCII, `none` otherwise.  The
header map is a function from (lowercase) names to at most one raw value
(`HeaderMap::get` returns the first value of a name). -/

/-- A raw header value as consumed through `to_str().ok()`. -/
structure RawHeaderValue where
  asUtf8 : Option String
deriving DecidableEq

/-- `routing.rs::read_header`: get, `to_str().ok()`, trim, keep only
non-empty, own. -/
def read_header (headers : String → Option RawHeaderValue) (name : String) :
    Option String :=
  Option.filter (fun v => !(v == ""))
    (((headers name).bind (fun v => v.asUtf8)).map trimStr)

/-- `routing.rs::extract_conversation_id`: `conversation_id` with fallback to
`session_id`. -/
def extract_conversation_id (headers : String → Option RawHeaderValue) :
    Option String :=
  (read_header headers "conversation_id").or (read_header headers "session_id")

/-! ## Forwarder response decoration (`proxy.rs`, `header_policy.rs`)

Header maps are lists of (name, value) pairs in iteration order, names
lowercase (the `HeaderName` invariant); values are the strings visible
through `to_str().ok()` (a value whose bytes fail that conversion only
matters for `connection_hop_headers` and the `Accept` sniff, where the code
skips it — modelled by omitting such entries). -/

/-- `HeaderMap::get`: the first value under a name. -/
def headerLookup (hs : List (String × String)) (name : String) : Option String :=
  (hs.find? (fun p => p.1 == name)).map (fun p => p.2)

/-- Valid `HeaderName` byte (the http crate's token set). -/
def validHeaderChar (c : Char) : Bool :=
  let n := c.toNat
  (48 ≤ n && n ≤ 57) || (97 ≤ n && n ≤ 122) || (65 ≤ n && n ≤ 90) ||
  n == 33 || n == 35 || n == 36 || n == 37 || n == 38 || n == 39 ||
  n == 42 || n == 43 || n == 45 || n == 46 || n == 94 || n == 95 ||
  n == 96 || n == 124 || n == 126

/-- `HeaderName::from_bytes(...).ok()`, with ASCII uppercase normalised to
lowercase. -/
def headerNameFromToken (s : String) : Option String :=
  if !s.toList.isEmpty && s.toList.all validHeaderChar then
    some (String.mk (s.toList.map toLowerAscii))
  else none

/-- `header_policy.rs::connection_hop_headers`: every comma-separated,
trimmed, non-empty, valid header name listed in any `Connection` value. -/
def connection_hop_headers (headers : List (String × String)) : List String :=
  ((headers.filter (fun p => p.1 == "connection")).map (fun p =>
    ((p.2.splitOn ",").map trimStr).filterMap
      (fun tok => if tok == "" then none else headerNameFromToken tok))).flatten

/-- `header_policy.rs::is_hop_by_hop`. -/
def is_hop_by_hop (connectionHops : List String) (name : String) : Bool :=
  connectionHops.contains name || name == "keep-alive" ||
  name == "connection" || name == "proxy-authenticate" ||
  name == "proxy-authorization" || name == "te" || name == "trailer" ||
  name == "transfer-encoding" || name == "upgrade"

/-- `header_policy.rs::forward_response_headers`: drop exactly the hop-by-hop
set, preserving order and multi-values. -/
def forward_response_headers (headers : List (String × String)) :
    List (String × String) :=
  let hops := connection_hop_headers headers
  headers.filter (fun p => !(is_hop_by_hop hops p.1))

/-- `proxy.rs::request_accepts_event_stream`. -/
def request_accepts_event_stream (headers : List (String × String)) : Bool :=
  match headerLookup headers "accept" with
  | some v => strContains v "text/event-stream"
  | none => false

/-- `HeaderMap::insert`: replaces any existing values under the name. -/
def insertHeader (hs : List (String × String)) (name value : String) :
    List (String × String) :=
  (hs.filter (fun p => p.1 != name)) ++ [(name, value)]

/-- Whether the response body is streamed (SSE passthrough) or fully
buffered. -/
inductive BodyMode
  | streamed
  | buffered
deriving DecidableEq

/-- The outbound response as far as headers and body handling are
concerned. -/
structure OutResponse where
  bodyMode : BodyMode
  headers : List (String × String)
deriving DecidableEq

/-- The response-side tail of `proxy.rs::forward` (lines 101-127): pick
streaming vs buffered from the request's `Accept`, filter the upstream
headers through the response policy, then insert `Cache-Control: no-cache`
and `X-Accel-Buffering: no` — in the source these two inserts are
unconditional, outside the streaming branch. -/
def forward_response (requestHeaders upstreamHeaders : List (String × String)) :
    OutResponse :=
  let wants := request_accepts_event_stream requestHeaders
  let hs := forward_response_headers upstreamHeaders
  let hs := insertHeader hs "cache-control" "no-cache"
  let hs := insertHeader hs "x-accel-buffering" "no"
  ⟨if wants then BodyMode.streamed else BodyMode.buffered, hs⟩

/-! ## Spec-side definitions

The following definitions transcribe the *specification's* wording (not the
source) and exist to be compared with the source embeddings above. -/

/-- Modelled from the spec (§4.4.1, steps 1–4): SHA-256 over
`pool_id ‖ 0x00 ‖ policy_key_or_empty ‖ 0x00 ‖ key`, first 8 bytes as a
big-endian signed 64-bit integer, `|v|` saturating at `i64::MAX` for the
minimum, then the non-negative remainder mod `n`. -/
def hashIndexSpec (pool_id : String) (policy_key : Option String) (key : String)
    (n : Nat) : Nat :=
  let digest := sha256 (utf8 pool_id ++ [0] ++ utf8 (policy_key.getD "") ++ [0] ++
    utf8 key)
  let v := i64FromBeBytes (digest.take 8)
  let v2 := if v = i64Min then i64Max else (v.natAbs : Int)
  (v2.emod (n : Int)).toNat

/-- The head of the computed selection order for a given hash key, when the
selection succeeds. -/
def selectedHead (args : RouteAccountArgs) (key : String) : Option String :=
  match select_candidates args.account_pool_id args.policy_key key args.labels
      args.usage_scores with
  | Except.ok l => l.head?
  | Except.error _ => none

/-- The label a successful routing call selects, per branch: the sticky value
when a valid sticky binding is used (directly, or recovered from the re-read
after a lost `SET NX` race), otherwise the head of the computed selection
order. -/
def stickySelectedSpec (kv : KvOracle) (args : RouteAccountArgs) : Option String :=
  match args.conversation_id with
  | some cid =>
    match kv.get1 with
    | some v =>
      if v ∈ args.labels then some v else selectedHead args cid
    | none =>
      if kv.nxOk then selectedHead args cid
      else
        match kv.get2 with
        | some c => if c ∈ args.labels then some c else selectedHead args cid
        | none => selectedHead args cid
  | none => selectedHead args args.non_sticky_key

/-- A `conversation_id` (or `session_id`) header that the extraction treats
as absent: missing, not valid UTF-8, or empty after trimming (which covers
whitespace-only values). -/
def convHeaderUnusable (v : Option RawHeaderValue) : Bool :=
  match v with
  | none => true
  | some hv =>
    match hv.asUtf8 with
    | none => true
    | some s => trimStr s == ""

/-- Concrete header map for exercising the conversation-id fallback: a
whitespace-only `conversation_id` and a paddable `session_id`. -/
def c10Headers : String → Option RawHeaderValue := fun n =>
  if n = "conversation_id" then some ⟨some "   "⟩
  else if n = "session_id" then some ⟨some " abc "⟩
  else none

/-! ## Helper lemmas -/

/-- Dropping entries of a different name does not change a lookup. -/
theorem find?_filter_ne (hs : List (String × String)) (n nq : String) (h : nq ≠ n) :
    (hs.filter (fun p => p.1 != n)).find? (fun p => p.1 == nq) =
      hs.find? (fun p => p.1 == nq) := by
  induction hs with
  | nil => rfl
  | cons p hs ih =>
    have h' : n ≠ nq := Ne.symm h
    by_cases hpq : p.1 = nq
    · simp [List.filter_cons, List.find?_cons, hpq, bne_iff_ne, h]
    · by_cases hpn : p.1 = n <;>
        simp [List.filter_cons, List.find?_cons, hpq, hpn, bne_iff_ne, h, h', ih]

/-- `headerLookup` after `insertHeader`: the inserted name now maps to the
inserted value; other names are untouched. -/
theorem headerLookup_insertHeader (hs : List (String × String)) (n v nq : String) :
    headerLookup (insertHeader hs n v) nq =
      if nq = n then some v else headerLookup hs nq := by
  unfold headerLookup insertHeader
  rw [List.find?_append]
  by_cases h : nq = n
  · subst h
    have hnone : (hs.filter (fun p => p.1 != nq)).find? (fun p => p.1 == nq) = none := by
      rw [List.find?_eq_none]
      intro x hx
      have := (List.mem_filter.mp hx).2
      simp only [bne_iff_ne, ne_eq, decide_eq_true_eq] at this
      simp [this]
    rw [hnone]
    simp [List.find?_cons]
  · rw [find?_filter_ne hs n nq h]
    have hnone : ([(n, v)].find? (fun p => p.1 == nq)) = none := by
      simp [List.find?_cons, Ne.symm h]
    rw [hnone]
    simp [h, Option.or_none]

/-- A non-whitespace character is shifted into the accumulator. -/
theorem splitWsAux_cons_nonws (c : Char) (cs acc : List Char)
    (h : isRustWhitespace c = false) :
    splitWsAux (c :: cs) acc = splitWsAux cs (c :: acc) := by
  simp [splitWsAux, h]

/-- A whitespace character flushes a non-empty accumulator. -/
theorem splitWsAux_cons_ws (c : Char) (cs acc : List Char)
    (h : isRustWhitespace c = true) :
    splitWsAux (c :: cs) acc =
      if acc.isEmpty then splitWsAux cs [] else acc.reverse :: splitWsAux cs [] := by
  simp [splitWsAux, h]

/-- On a whitespace-free remainder, `splitWsAux` yields the single remaining
token (accumulator prefix included), or nothing if that token is empty. -/
theorem splitWsAux_all_nonws (cs : List Char) :
    ∀ acc, (∀ c ∈ cs, isRustWhitespace c = false) →
      splitWsAux cs acc =
        if (acc.reverse ++ cs).isEmpty then [] else [acc.reverse ++ cs] := by
  induction cs with
  | nil =>
    intro acc _
    by_cases h : acc = [] <;> simp [splitWsAux, h]
  | cons c cs ih =>
    intro acc h
    rw [splitWsAux_cons_nonws c cs acc (h c (List.mem_cons_self c cs))]
    rw [ih (c :: acc) (fun x hx => h x (List.mem_cons_of_mem c hx))]
    simp

/-- `read_header` fails exactly on unusable header values: absent, not valid
UTF-8, or empty after trimming. -/
theorem read_header_eq_none_iff (headers : String → Option RawHeaderValue)
    (name : String) :
    read_header headers name = none ↔ convHeaderUnusable (headers name) = true := by
  unfold read_header convHeaderUnusable
  cases h : headers name with
  | none => simp
  | some hv =>
    cases hu : hv.asUtf8 with
    | none => simp [hu]
    | some s =>
      by_cases he : trimStr s = "" <;> simp [hu, Option.filter, he]

/-! ## Claim theorems -/

/-- C4 counterexample: for a request whose `Accept` is `application/json`
(so it does not contain `text/event-stream`, and the response is buffered),
the forwarder still adds `Cache-Control: no-cache` and
`X-Accel-Buffering: no` — refuting the claim that these headers are added
exactly when `Accept` contains `text/event-stream`. -/
theorem forward_adds_headers_on_non_stream_response :
    request_accepts_event_stream [("accept", "application/json")] = false ∧
    (forward_response [("accept", "application/json")]
        [("content-type", "text/plain")]).bodyMode = BodyMode.buffered ∧
    headerLookup (forward_response [("accept", "application/json")]
        [("content-type", "text/plain")]).headers "cache-control" =
      some "no-cache" ∧
    headerLookup (forward_response [("accept", "application/json")]
        [("content-type", "text/plain")]).headers "x-accel-buffering" =
      some "no" := by
  decide

/-- C4 (amended): the forwarder adds `Cache-Control: no-cache` and
`X-Accel-Buffering: no` to the outbound response unconditionally — for every
request (streaming or not) and every upstream header set. -/
theorem forward_response_always_adds_anti_buffering_headers
    (requestHeaders upstreamHeaders : List (String × String)) :
    headerLookup (forward_response requestHeaders upstreamHeaders).headers
        "cache-control" = some "no-cache" ∧
    headerLookup (forward_response requestHeaders upstreamHeaders).headers
        "x-accel-buffering" = some "no" := by
  unfold forward_response
  constructor
  · rw [headerLookup_insertHeader, if_neg (by decide), headerLookup_insertHeader,
      if_pos rfl]
  · rw [headerLookup_insertHeader, if_pos rfl]

/-- C9: for every non-empty token `t` containing no whitespace, parsing the
bearer header value `"Bearer " ++ t` yields `some t`. -/
theorem parse_bearer_token_roundtrip (t : String) (hne : t ≠ "")
    (hws : ∀ c ∈ t.toList, isRustWhitespace c = false) :
    parse_bearer_token ("Bearer " ++ t) = some t := by
  have hdata : ("Bearer " ++ t).toList =
      'B' :: 'e' :: 'a' :: 'r' :: 'e' :: 'r' :: ' ' :: t.toList := by
    show ("Bearer " ++ t).data = _
    rw [String.data_append]
    rfl
  have hlist : t.toList ≠ [] := by
    intro hcontra
    apply hne
    cases t with
    | mk d =>
      simp only [String.toList] at hcontra
      simp [hcontra]
  unfold parse_bearer_token splitWhitespace
  rw [hdata]
  rw [splitWsAux_cons_nonws _ _ _ (by decide), splitWsAux_cons_nonws _ _ _ (by decide),
    splitWsAux_cons_nonws _ _ _ (by decide), splitWsAux_cons_nonws _ _ _ (by decide),
    splitWsAux_cons_nonws _ _ _ (by decide), splitWsAux_cons_nonws _ _ _ (by decide),
    splitWsAux_cons_ws _ _ _ (by decide)]
  rw [if_neg (by decide)]
  rw [splitWsAux_all_nonws t.toList [] hws]
  rw [if_neg (by simpa using hlist)]
  simp only [List.reverse_nil, List.nil_append, List.map_cons, List.map_nil]
  rw [if_pos (by decide)]
  show some (String.mk t.toList) = some t
  rfl

/-- C9 witness: the round-trip at the concrete token `tok123`. -/
theorem parse_bearer_token_roundtrip_witness :
    parse_bearer_token "Bearer tok123" = some "tok123" := by
  have h := parse_bearer_token_roundtrip "tok123" (by decide) (by decide)
  exact h

/-- C10: a `conversation_id` header that is absent, not valid UTF-8, or
empty after trimming (in particular whitespace-only) makes the extraction
fall back to `session_id`, which is subject to the same trim/non-empty
checks via `read_header`; the result is absent exactly when both headers
fail those checks. -/
theorem extract_conversation_id_fallback (headers : String → Option RawHeaderValue) :
    (convHeaderUnusable (headers "conversation_id") = true →
        extract_conversation_id headers = read_header headers "session_id") ∧
    (extract_conversation_id headers = none ↔
        convHeaderUnusable (headers "conversation_id") = true ∧
        convHeaderUnusable (headers "session_id") = true) := by
  constructor
  · intro h
    have h1 : read_header headers "conversation_id" = none :=
      (read_header_eq_none_iff headers "conversation_id").mpr h
    unfold extract_conversation_id
    rw [h1, Option.none_or]
  · unfold extract_conversation_id
    rw [← read_header_eq_none_iff, ← read_header_eq_none_iff]
    cases read_header headers "conversation_id" <;> simp [Option.or]

/-- C10 witness: a whitespace-only `conversation_id` falls back to the
trimmed `session_id`. -/
theorem extract_conversation_id_fallback_witness :
    convHeaderUnusable (c10Headers "conversation_id") = true ∧
    extract_conversation_id c10Headers = some "abc" := by
  refine ⟨by decide, ?_⟩
  rw [(extract_conversation_id_fallback c10Headers).1 (by decide)]
  decide

/-- C2: with a conversation id whose sticky binding exists in kv and whose
stored value is still one of the pool's labels, `route_account` returns that
stored value as the selected (first) label and issues no kv write — no `SET`
and no TTL renewal. -/
theorem route_account_sticky_hit (kv : KvOracle) (args : RouteAccountArgs)
    (cid v : String)
    (hconv : args.conversation_id = some cid)
    (hget : kv.get1 = some v)
    (hmem : v ∈ args.labels)
    (httl : 0 < args.sticky_ttl_seconds) :
    route_account kv args =
      Except.ok (⟨args.account_pool_id,
        v :: args.labels.filter (fun l => l != v), args.conversation_id⟩, []) := by
  have hne : args.labels ≠ [] := List.ne_nil_of_mem hmem
  have hany : args.labels.any (fun l => l == v) = true := by
    rw [List.any_eq_true]
    exact ⟨v, hmem, by simp⟩
  unfold route_account
  rw [if_neg hne, if_neg (not_le.mpr httl), hconv, hget]
  simp [hany]

/-- C2 witness: sticky value `b` in pool `(a, b)` is returned first with no
writes. -/
theorem route_account_sticky_hit_witness :
    route_account ⟨some "b", false, none⟩
        ⟨"p", ["a", "b"], none, 7200, some "c1", "nsk", []⟩ =
      Except.ok (⟨"p", ["b", "a"], some "c1"⟩, []) := by
  have h := route_account_sticky_hit ⟨some "b", false, none⟩
    ⟨"p", ["a", "b"], none, 7200, some "c1", "nsk", []⟩ "c1" "b" rfl rfl
    (by decide) (by decide)
  exact h

/-- The ring index is always in range for a non-empty pool. -/
theorem ringIdx_lt (account_pool_id : String) (policy_key : Option String)
    (key : String) (len : Nat) (h : 0 < len) :
    ringIdx account_pool_id policy_key key len < len := by
  have hbpos : (0 : Int) < min (len : Int) i64Max :=
    lt_min (by exact_mod_cast h) (by norm_num [i64Max])
  have hlt : ∀ v2 : Int, (v2.emod (min (len : Int) i64Max)).toNat < len := by
    intro v2
    have h1 : 0 ≤ v2.emod (min (len : Int) i64Max) :=
      Int.emod_nonneg v2 (ne_of_gt hbpos)
    have h2 : v2.emod (min (len : Int) i64Max) < min (len : Int) i64Max :=
      Int.emod_lt_of_pos v2 hbpos
    have h3 : min (len : Int) i64Max ≤ (len : Int) := min_le_left _ _
    omega
  simp only [ringIdx]
  exact hlt _

/-- The cyclic read `labels[(idx + i) % len]` for `i < len` is exactly
`labels.rotate idx`. -/
theorem range_map_getD_eq_rotate (l : List String) (idx : Nat) (h : idx < l.length) :
    (List.range l.length).map (fun i => l.getD ((idx + i) % l.length) "") =
      l.rotate idx := by
  have hpos : 0 < l.length := Nat.lt_of_le_of_lt (Nat.zero_le idx) h
  apply List.ext_getElem
  · simp [List.length_rotate]
  · intro i h1 h2
    simp only [List.getElem_map, List.getElem_range]
    rw [List.getElem_rotate]
    have hmod : (idx + i) % l.length < l.length := Nat.mod_lt _ hpos
    rw [List.getD_eq_getElem l "" hmod]
    have hco : (idx + i) % l.length = (i + idx) % l.length := by rw [Nat.add_comm]
    simp only [hco]

/-- On a non-empty pool the ring selection succeeds and returns a rotation
of `labels`. -/
theorem select_candidates_ring_ok (account_pool_id : String)
    (policy_key : Option String) (key : String) (labels : List String)
    (hne : labels ≠ []) :
    select_candidates_ring account_pool_id policy_key key labels =
      Except.ok (labels.rotate (ringIdx account_pool_id policy_key key labels.length)) := by
  have hlen : 0 < labels.length := List.length_pos.mpr hne
  have hbpos : (0 : Int) < min (labels.length : Int) i64Max :=
    lt_min (by exact_mod_cast hlen) (by norm_num [i64Max])
  simp only [select_candidates_ring]
  rw [if_neg (not_le.mpr hbpos),
    range_map_getD_eq_rotate labels _ (ringIdx_lt account_pool_id policy_key key _ hlen)]

/-- On a non-empty pool the selection always succeeds and returns a
permutation of `labels` (a rotation on the hash path, a stable sort on the
usage path). -/
theorem select_candidates_ok_perm (account_pool_id : String)
    (policy_key : Option String) (key : String) (labels : List String)
    (scores : List (String × Score)) (hne : labels ≠ []) :
    ∃ out, select_candidates account_pool_id policy_key key labels scores =
        Except.ok out ∧ out.Perm labels := by
  unfold select_candidates
  by_cases hs : scores.isEmpty
  · rw [if_pos hs, select_candidates_ring_ok account_pool_id policy_key key labels hne]
    exact ⟨_, rfl, List.rotate_perm labels _⟩
  · rw [if_neg hs]
    exact ⟨_, rfl, List.perm_insertionSort _ labels⟩

/-- On a non-empty pool the selection returns a non-empty list whose head is
one of the labels. -/
theorem select_candidates_ok_head_mem (account_pool_id : String)
    (policy_key : Option String) (key : String) (labels : List String)
    (scores : List (String × Score)) (hne : labels ≠ []) :
    ∃ sel rest, select_candidates account_pool_id policy_key key labels scores =
        Except.ok (sel :: rest) ∧ sel ∈ labels ∧ (sel :: rest).Perm labels := by
  obtain ⟨out, hout, hperm⟩ :=
    select_candidates_ok_perm account_pool_id policy_key key labels scores hne
  cases out with
  | nil =>
    have h0 := hperm.length_eq
    simp only [List.length_nil] at h0
    exact absurd (List.length_eq_zero.mp h0.symm) hne
  | cons sel rest =>
    exact ⟨sel, rest, hout, hperm.mem_iff.mp (List.mem_cons_self sel rest), hperm⟩

/-- C1 (amended): on a non-empty pool the selection is total and its selected
(first) label lies in `labels`; the result is a function of the five inputs
`(pool_id, policy_key, key, labels, usage_scores)` — in particular it also
depends on the usage-score map, not only on the four inputs the claim
names. -/
theorem select_candidates_total_in_labels (account_pool_id : String)
    (policy_key : Option String) (key : String) (labels : List String)
    (scores : List (String × Score)) (hne : labels ≠ []) :
    ∃ sel rest, select_candidates account_pool_id policy_key key labels scores =
        Except.ok (sel :: rest) ∧ sel ∈ labels ∧ (sel :: rest).Perm labels :=
  select_candidates_ok_head_mem account_pool_id policy_key key labels scores hne

/-- C1 witness: the amended theorem at a concrete input. -/
theorem select_candidates_total_in_labels_witness :
    ∃ sel rest, select_candidates "p" none "k" ["a", "b"] [] =
        Except.ok (sel :: rest) ∧ sel ∈ ["a", "b"] ∧ (sel :: rest).Perm ["a", "b"] :=
  select_candidates_total_in_labels "p" none "k" ["a", "b"] [] (by decide)

unseal Rat.sub Rat.add Rat.mul Rat.inv Rat.ofScientific in
/-- C1 counterexample: two calls with identical `(pool_id, policy_key, key,
labels)` but different usage-score maps select different labels, refuting
"its result depends only on those four inputs". -/
theorem select_candidates_usage_dependence :
    select_candidates "p" none "k" ["a", "b"]
        [("a", ⟨true, 100, true, 100⟩), ("b", ⟨true, 1, true, 1⟩)] =
      Except.ok ["a", "b"] ∧
    select_candidates "p" none "k" ["a", "b"]
        [("a", ⟨true, 1, true, 1⟩), ("b", ⟨true, 100, true, 100⟩)] =
      Except.ok ["b", "a"] := by
  constructor <;> decide

/-- The source's ring index agrees with the specification's description of
it whenever the label count fits in `i64` (the `policy_key`-or-empty byte
string in the spec equals the source's conditional hash update). -/
theorem ringIdx_eq_hashIndexSpec (account_pool_id : String)
    (policy_key : Option String) (key : String) (len : Nat)
    (hlen : (len : Int) ≤ i64Max) :
    ringIdx account_pool_id policy_key key len =
      hashIndexSpec account_pool_id policy_key key len := by
  unfold ringIdx hashIndexSpec
  rw [min_eq_left hlen]
  cases policy_key with
  | none => rfl
  | some p => rfl

/-- C5: on the hash path (empty usage-score map) the selected label is
`labels[idx]` where `idx` is computed exactly as the claim specifies:
SHA-256 of `pool_id ‖ 0x00 ‖ policy_key-or-empty ‖ 0x00 ‖ key`, first 8
digest bytes as a big-endian signed 64-bit `v`, `|v|` saturating to
`i64::MAX` at the minimum, and the non-negative remainder mod `len(labels)`
(`hashIndexSpec`). -/
theorem hash_path_selected_label (account_pool_id : String)
    (policy_key : Option String) (key : String) (labels : List String)
    (hne : labels ≠ []) (hlen : (labels.length : Int) ≤ i64Max) :
    ∃ out, select_candidates account_pool_id policy_key key labels [] =
        Except.ok out ∧
      out.head? = labels[hashIndexSpec account_pool_id policy_key key labels.length]? ∧
      hashIndexSpec account_pool_id policy_key key labels.length < labels.length := by
  have hlenpos : 0 < labels.length := List.length_pos.mpr hne
  have hlt := ringIdx_lt account_pool_id policy_key key labels.length hlenpos
  have heq := ringIdx_eq_hashIndexSpec account_pool_id policy_key key labels.length hlen
  refine ⟨labels.rotate (ringIdx account_pool_id policy_key key labels.length), ?_, ?_, ?_⟩
  · unfold select_candidates
    have hemp : ([] : List (String × Score)).isEmpty = true := rfl
    rw [if_pos hemp, select_candidates_ring_ok account_pool_id policy_key key labels hne]
  · rw [List.head?_rotate hlt, heq]
  · rw [← heq]
    exact hlt

/-- C5 witness: the hash-path characterisation at a concrete input. -/
theorem hash_path_selected_label_witness :
    ∃ out, select_candidates "p" none "chat-1" ["a", "b", "c"] [] =
        Except.ok out ∧
      out.head? = ["a", "b", "c"][hashIndexSpec "p" none "chat-1" 3]? ∧
      hashIndexSpec "p" none "chat-1" 3 < 3 :=
  hash_path_selected_label "p" none "chat-1" ["a", "b", "c"] (by decide) (by decide)

/-- C7: with a non-negative safety window, if the kv cache holds material
with `expires_at_ms − now > safety_window_seconds * 1000` at read time, `get`
returns exactly that cached material with an empty effect list — no refresh
lock `SET NX` attempt and no read of the on-disk credential store.  (The
range hypotheses state that the `i64` saturating arithmetic of the source
does not saturate, which holds for all realistic clock values.) -/
theorem tp_get_cache_hit (kv : TokenOracle) (account_id : String) (sws : Int)
    (m : AuthMaterial)
    (hsws : 0 ≤ sws)
    (hcached : kv.cached0 = some m)
    (hfresh : sws * 1000 < m.expires_at_ms - kv.startMs)
    (hsub : m.expires_at_ms - kv.startMs ≤ i64Max)
    (hmul : sws * 1000 ≤ i64Max) :
    tp_get kv account_id sws = Except.ok (m, []) := by
  have h0 : (0 : Int) ≤ sws * 1000 := mul_nonneg hsws (by norm_num)
  have hsafety : satMul sws 1000 = sws * 1000 := by
    unfold satMul
    rw [min_eq_right hmul, max_eq_right (le_trans (by norm_num [i64Min]) h0)]
  have hsatsub : satSub m.expires_at_ms kv.startMs = m.expires_at_ms - kv.startMs := by
    unfold satSub
    rw [min_eq_right hsub,
      max_eq_right (le_trans (by norm_num [i64Min]) (le_of_lt (lt_of_le_of_lt h0 hfresh)))]
  unfold tp_get
  rw [if_neg (not_lt.mpr hsws), hcached]
  simp only [hsafety, hsatsub]
  rw [if_pos hfresh]

/-- C7 witness: a fresh cached token is returned as-is. -/
theorem tp_get_cache_hit_witness :
    tp_get ⟨1000, some ⟨"Bearer x", none, 1000000⟩, false, Except.error "unused",
        0, [], Except.error "unused", 0⟩ "acct-9" 120 =
      Except.ok (⟨"Bearer x", none, 1000000⟩, []) := by
  have h := tp_get_cache_hit ⟨1000, some ⟨"Bearer x", none, 1000000⟩, false,
    Except.error "unused", 0, [], Except.error "unused", 0⟩ "acct-9" 120
    ⟨"Bearer x", none, 1000000⟩ (by norm_num) rfl (by norm_num)
    (by norm_num [i64Max]) (by norm_num [i64Max])
  exact h

/-- C6: the cache TTL equals `(expires_at_ms − now)/1000 −
token_safety_window_seconds` (truncated division); whenever that quantity is
≤ 0, `put_cached` refuses — it returns an error before issuing any `SET` —
and on the lock-acquired path the whole `get` call fails with that error (so
loaded material whose JWT `exp` is in the past is never cached).  The range
hypothesis states that the `i64` saturating subtraction does not saturate. -/
theorem put_cached_ttl_and_refusal (account_id : String) (m : AuthMaterial)
    (sws : Int) (kv : TokenOracle)
    (hsub1 : i64Min ≤ m.expires_at_ms - kv.putNow)
    (hsub2 : m.expires_at_ms - kv.putNow ≤ i64Max) :
    (∀ key ttl, put_cached account_id m sws kv.putNow = Except.ok (key, ttl) →
        ttl = Int.tdiv (m.expires_at_ms - kv.putNow) 1000 - sws ∧ 0 < ttl) ∧
    (Int.tdiv (m.expires_at_ms - kv.putNow) 1000 - sws ≤ 0 →
        put_cached account_id m sws kv.putNow =
          Except.error "refusing to cache expired/near-expiry access token") ∧
    (Int.tdiv (m.expires_at_ms - kv.putNow) 1000 - sws ≤ 0 →
     0 ≤ sws → kv.cached0 = none → kv.lockAcquired = true →
     kv.loadResult = Except.ok m →
        tp_get kv account_id sws =
          Except.error "refusing to cache expired/near-expiry access token") := by
  have hsat : satSub m.expires_at_ms kv.putNow = m.expires_at_ms - kv.putNow := by
    unfold satSub
    rw [min_eq_right hsub2, max_eq_right hsub1]
  have hput : ∀ h : Int.tdiv (m.expires_at_ms - kv.putNow) 1000 - sws ≤ 0,
      put_cached account_id m sws kv.putNow =
        Except.error "refusing to cache expired/near-expiry access token" := by
    intro h
    unfold put_cached
    rw [hsat, if_pos h]
  refine ⟨?_, hput, ?_⟩
  · intro key ttl hok
    unfold put_cached at hok
    rw [hsat] at hok
    by_cases h : Int.tdiv (m.expires_at_ms - kv.putNow) 1000 - sws ≤ 0
    · rw [if_pos h] at hok
      exact absurd hok (by simp)
    · rw [if_neg h] at hok
      simp only [Except.ok.injEq, Prod.mk.injEq] at hok
      exact ⟨hok.2.symm, hok.2 ▸ not_le.mp h⟩
  · intro h hsws hmiss hlock hload
    unfold tp_get
    rw [if_neg (not_lt.mpr hsws), hmiss]
    simp only [hlock, if_true, hload]
    rw [hput h]

/-- C6 witness: a long-expired token (`exp` in the past) makes `get` fail and
issues no cache write. -/
theorem put_cached_ttl_and_refusal_witness :
    tp_get ⟨5000000, none, true, Except.ok ⟨"Bearer x", none, 1000⟩,
        5000000, [], Except.error "unused", 0⟩ "acct-9" 120 =
      Except.error "refusing to cache expired/near-expiry access token" := by
  have h := (put_cached_ttl_and_refusal "acct-9" ⟨"Bearer x", none, 1000⟩ 120
    ⟨5000000, none, true, Except.ok ⟨"Bearer x", none, 1000⟩, 5000000, [],
     Except.error "unused", 0⟩
    (by norm_num [i64Min]) (by norm_num [i64Max])).2.2
  exact h (by decide) (by decide) rfl rfl rfl

set_option maxRecDepth 8000 in
unseal Rat.sub Rat.add Rat.mul Rat.inv Rat.ofScientific in
/-- C3 counterexample: conversation id present, no sticky binding, `SET NX`
lost the race, and the re-read finds the value `z` — which is *present* but
not one of the pool's labels.  The router does not return `z`; it falls back
to its own computed selection (`a`), refuting "returns the value found there
whenever one is present; only when the re-read finds no value does it fall
back". -/
theorem route_account_race_reread_guard_cex :
    route_account ⟨none, false, some "z"⟩
        ⟨"p", ["a", "b"], none, 7200, some "c1", "nsk",
         [("a", ⟨true, 100, true, 100⟩), ("b", ⟨true, 50, true, 50⟩)]⟩ =
      Except.ok (⟨"p", ["a", "b"], some "c1"⟩,
        [KvWrite.setNxEx (sticky_key "p" "c1") "a" 7200]) ∧
    ("a" : String) ≠ "z" := by
  constructor <;> decide

/-- C3 (amended): after a lost `SET NX` race the router re-reads the sticky
key and returns the value found there whenever one is present *and it is
still one of the pool's labels*; otherwise — no value, or a value no longer
in `labels` — it falls back to its own computed selection. -/
theorem route_account_race_reread (kv : KvOracle) (args : RouteAccountArgs)
    (cid : String)
    (hconv : args.conversation_id = some cid)
    (hget1 : kv.get1 = none)
    (hnx : kv.nxOk = false)
    (hne : args.labels ≠ [])
    (httl : 0 < args.sticky_ttl_seconds) :
    ∃ info w, route_account kv args = Except.ok (info, w) ∧
      info.candidates.head? =
        (match kv.get2 with
         | some c => if c ∈ args.labels then some c else selectedHead args cid
         | none => selectedHead args cid) := by
  obtain ⟨sel, rest, hsel, hmem, hperm⟩ :=
    select_candidates_ok_head_mem args.account_pool_id args.policy_key cid
      args.labels args.usage_scores hne
  have hhead : selectedHead args cid = some sel := by
    unfold selectedHead
    rw [hsel]
    rfl
  unfold route_account
  rw [if_neg hne, if_neg (not_le.mpr httl)]
  simp only [hconv, hget1, hsel, hnx]
  cases hget2 : kv.get2 with
  | none =>
    simp only [Bool.false_eq_true, if_false]
    refine ⟨_, _, rfl, ?_⟩
    simp [hhead]
  | some c =>
    by_cases hc : c ∈ args.labels
    · have hcon : args.labels.contains c = true := List.elem_iff.mpr hc
      simp only [Bool.false_eq_true, if_false, hcon, if_true]
      refine ⟨_, _, rfl, ?_⟩
      simp [hc]
    · have hcon : args.labels.contains c = false := by
        rw [← Bool.not_eq_true]
        intro hcontra
        exact hc (List.elem_iff.mp hcontra)
      simp only [Bool.false_eq_true, if_false, hcon]
      refine ⟨_, _, rfl, ?_⟩
      simp [hc, hhead]

/-- C3 witness: the amended statement at a concrete input where the re-read
value is still a pool label, so it is returned. -/
theorem route_account_race_reread_witness :
    ∃ info w,
      route_account ⟨none, false, some "b"⟩
          ⟨"p", ["a", "b"], none, 7200, some "c1", "nsk", []⟩ =
        Except.ok (info, w) ∧
      info.candidates.head? = some "b" := by
  obtain ⟨info, w, hok, hhead⟩ := route_account_race_reread ⟨none, false, some "b"⟩
    ⟨"p", ["a", "b"], none, 7200, some "c1", "nsk", []⟩ "c1" rfl rfl rfl
    (by decide) (by decide)
  refine ⟨info, w, hok, ?_⟩
  rw [hhead]
  decide

/-- C8: every successful `route_account` call returns an ordered candidate
list that is a permutation of the pool's labels (each label exactly once,
given the pool invariant that `labels` has no duplicates), whose first
element is the selected label: the sticky value when a valid sticky binding
is used (read directly or recovered after a lost `SET NX` race), otherwise
the head of the computed selection order (`stickySelectedSpec`). -/
theorem route_account_candidates_perm_head (kv : KvOracle) (args : RouteAccountArgs)
    (info : RouteInfo) (w : List KvWrite)
    (hnd : args.labels.Nodup)
    (hok : route_account kv args = Except.ok (info, w)) :
    info.candidates.Perm args.labels ∧
      info.candidates.head? = stickySelectedSpec kv args := by
  have hfilter : ∀ v : String, v ∈ args.labels →
      (v :: args.labels.filter (fun l => l != v)).Perm args.labels := by
    intro v hv
    rw [← List.Nodup.erase_eq_filter hnd v]
    exact (List.perm_cons_erase hv).symm
  unfold route_account at hok
  by_cases hne : args.labels = []
  · rw [if_pos hne] at hok
    exact absurd hok (by simp)
  rw [if_neg hne] at hok
  by_cases httl : args.sticky_ttl_seconds ≤ 0
  · rw [if_pos httl] at hok
    exact absurd hok (by simp)
  rw [if_neg httl] at hok
  unfold stickySelectedSpec
  cases hconv : args.conversation_id with
  | none =>
    obtain ⟨sel, rest, hsel, hmem, hperm⟩ :=
      select_candidates_ok_head_mem args.account_pool_id args.policy_key
        args.non_sticky_key args.labels args.usage_scores hne
    simp only [hconv, hsel, Except.ok.injEq, Prod.mk.injEq] at hok
    obtain ⟨hinfo, _⟩ := hok
    subst hinfo
    refine ⟨hperm, ?_⟩
    unfold selectedHead
    rw [hsel]
  | some cid =>
    cases hget1 : kv.get1 with
    | some v =>
      by_cases hv : v ∈ args.labels
      · have hany : args.labels.any (fun l => l == v) = true := by
          rw [List.any_eq_true]
          exact ⟨v, hv, by simp⟩
        simp only [hconv, hget1, hany, if_true, Except.ok.injEq, Prod.mk.injEq] at hok
        obtain ⟨hinfo, _⟩ := hok
        subst hinfo
        exact ⟨hfilter v hv, by simp [hv]⟩
      · have hany : args.labels.any (fun l => l == v) = false := by
          rw [← Bool.not_eq_true, List.any_eq_true]
          rintro ⟨x, hx, hxv⟩
          exact hv ((by simpa using hxv) ▸ hx)
        obtain ⟨sel, rest, hsel, hmem, hperm⟩ :=
          select_candidates_ok_head_mem args.account_pool_id args.policy_key
            cid args.labels args.usage_scores hne
        simp only [hconv, hget1, hany, Bool.false_eq_true, if_false, hsel,
          Except.ok.injEq, Prod.mk.injEq] at hok
        obtain ⟨hinfo, _⟩ := hok
        subst hinfo
        refine ⟨hperm, ?_⟩
        simp only [hv, if_false]
        unfold selectedHead
        rw [hsel]
    | none =>
      obtain ⟨sel, rest, hsel, hmem, hperm⟩ :=
        select_candidates_ok_head_mem args.account_pool_id args.policy_key
          cid args.labels args.usage_scores hne
      have hheadsel : selectedHead args cid = some sel := by
        unfold selectedHead
        rw [hsel]
        rfl
      by_cases hnx : kv.nxOk
      · simp only [hconv, hget1, hsel, hnx, if_true, Except.ok.injEq,
          Prod.mk.injEq] at hok
        obtain ⟨hinfo, _⟩ := hok
        subst hinfo
        exact ⟨hperm, by simp [hnx, hheadsel]⟩
      · have hnxf : kv.nxOk = false := Bool.not_eq_true _ |>.mp hnx
        cases hget2 : kv.get2 with
        | some c =>
          by_cases hc : c ∈ args.labels
          · have hcon : args.labels.contains c = true := List.elem_iff.mpr hc
            simp only [hconv, hget1, hsel, hnxf, Bool.false_eq_true, if_false,
              hget2, hcon, if_true, Except.ok.injEq, Prod.mk.injEq] at hok
            obtain ⟨hinfo, _⟩ := hok
            subst hinfo
            refine ⟨hfilter c hc, ?_⟩
            simp [hnxf, hc]
          · have hcon : args.labels.contains c = false := by
              rw [← Bool.not_eq_true]
              intro hcontra
              exact hc (List.elem_iff.mp hcontra)
            simp only [hconv, hget1, hsel, hnxf, Bool.false_eq_true, if_false,
              hget2, hcon, Except.ok.injEq, Prod.mk.injEq] at hok
            obtain ⟨hinfo, _⟩ := hok
            subst hinfo
            refine ⟨hperm, ?_⟩
            simp [hnxf, hc, hheadsel]
        | none =>
          simp only [hconv, hget1, hsel, hnxf, Bool.false_eq_true, if_false,
            hget2, Except.ok.injEq, Prod.mk.injEq] at hok
          obtain ⟨hinfo, _⟩ := hok
          subst hinfo
          refine ⟨hperm, ?_⟩
          simp [hnxf, hheadsel]

/-- C8 witness: the invariant at a concrete sticky-hit call. -/
theorem route_account_candidates_perm_head_witness :
    (["b", "a"] : List String).Perm ["a", "b"] ∧
      (["b", "a"] : List String).head? =
        stickySelectedSpec ⟨some "b", false, none⟩
          ⟨"p", ["a", "b"], none, 7200, some "c1", "nsk", []⟩ := by
  have h := route_account_candidates_perm_head ⟨some "b", false, none⟩
    ⟨"p", ["a", "b"], none, 7200, some "c1", "nsk", []⟩
    ⟨"p", ["b", "a"], some "c1"⟩ [] (by decide) (by decide)
  exact h

end Gateway

/-! ## SHA-256 known-answer tests (FIPS 180-4 / `sha2` crate vectors) -/

/-- The embedded SHA-256 reproduces the standard `abc` test vector. -/
theorem sha256_test_vector_abc :
    Gateway.sha256 (Gateway.utf8 "abc") =
      [186, 120, 22, 191, 143, 1, 207, 234, 65, 65, 64, 222, 93, 174, 34, 35,
       176, 3, 97, 163, 150, 23, 122, 156, 180, 16, 255, 97, 242, 0, 21, 173] := by
  decide

/-- The embedded base64url-no-pad encoding of a SHA-256 digest matches the
reference encoding. -/
theorem b64url_sha256_test_vector :
    String.mk (Gateway.b64url (Gateway.sha256 (Gateway.utf8 "hello"))) =
      "LPJNul-wow4m6DsqxbninhsWHlwfp0JecwQzYpOLmCQ" := by
  decide
